import Mathlib

/-!  Shallow embedding of the StringZilla CPython binding (src/python/lib.c):
     the slice normalizer, string views (`Str`), memory-mapped files, and the
     module-level find entry point.  Byte memory is modelled as a total map
     from addresses to byte values; the external search/hash kernels are
     abstracted as pure functions per their documented contract, with
     executable models provided for concrete evaluation. -/

namespace SZ

/-- Byte memory: an address space mapping addresses to byte values. -/
def Mem : Type := Nat → Nat

/-- Read `len` bytes starting at address `start` (the content of a Byte
    Range). -/
def readBytes (mem : Mem) (start len : Nat) : List Nat :=
  (List.range len).map (fun i => mem (start + i))

/-- The `Str` struct of lib.c: a parent reference (modelled as an optional
    object id standing for the PyObject pointer whose refcount is held), a
    start address, and a byte length. -/
structure Str where
  parent : Option Nat
  start : Nat
  length : Nat
deriving DecidableEq

/-- Negative-index adjustment of the `slice` normalizer of lib.c (lines
    74-75): a negative index gets the length added. -/
def addIfNeg (length : Nat) (i : Int) : Int := if i < 0 then i + length else i

/-- Lower clamp of lib.c (lines 78-79): a still-negative index becomes 0. -/
def clampLow (i : Int) : Int := if i < 0 then 0 else i

/-- Upper clamp of lib.c (lines 80-81): an index above the length becomes the
    length. -/
def clampHigh (length : Nat) (i : Int) : Int :=
  if i > (length : Int) then (length : Int) else i

/-- One index of the `slice` normalizer of lib.c (lines 74-81): add `length`
    to a negative index, then clamp into `[0, length]`. -/
def clampIndex (length : Nat) (i : Int) : Int :=
  clampHigh length (clampLow (addIfNeg length i))

/-- The start index after the out-of-order correction of lib.c (line 84):
    when the clamped start exceeds the clamped end, the start is forced to
    the end. -/
def sliceStart (length : Nat) (start stop : Int) : Int :=
  if clampIndex length start > clampIndex length stop then clampIndex length stop
  else clampIndex length start

/-- The `slice` normalizer of lib.c (lines 70-89): clamp both indices, force
    `start = end` when out of order, and return the offset and normalized
    length. -/
def slice (length : Nat) (start stop : Int) : Nat × Nat :=
  ((sliceStart length start stop).toNat,
   (clampIndex length stop - sliceStart length start stop).toNat)

/-- The MemoryMappedFile struct of lib.c (POSIX branch): file descriptor,
    mapping start address (`none` = NULL pointer), mapped length. -/
structure MMFile where
  file_descriptor : Int
  start : Option Nat
  length : Nat
deriving DecidableEq

/-- The Python argument universe seen by export_string_like: `str` and
    `bytes` objects expose a buffer at an address, `Str` and
    `MemoryMappedFile` expose their stored range, and anything else lacks the
    byte-range capability. -/
inductive PyObject where
  | pyUnicode (start length : Nat)
  | pyBytes (start length : Nat)
  | pyStr (v : Str)
  | pyMMap (f : MMFile)
  | pyOther
deriving DecidableEq

/-- export_string_like of lib.c (lines 91-122): the (pointer, length) pair
    exported by a string-like object, or `none` when the object is
    unsupported (the C function returns 0). -/
def export_string_like : PyObject → Option (Nat × Nat)
  | .pyUnicode s l => some (s, l)
  | .pyBytes s l => some (s, l)
  | .pyStr v => some (v.start, v.length)
  | .pyMMap f => some (f.start.getD 0, f.length)
  | .pyOther => none

/-- Sign-faithful model of the C `memcmp` call of Str_richcompare: lib.c
    compares min(len_a, len_b) bytes; recursing on both full byte lists stops
    at the shorter one, which is exactly that common-prefix comparison. -/
def memcmpList : List Nat → List Nat → Int
  | [], _ => 0
  | _ :: _, [] => 0
  | a :: as, b :: bs => if a < b then -1 else if b < a then 1 else memcmpList as bs

/-- The comparison value computed by Str_richcompare (lines 477-483): memcmp
    over the common prefix, then the shorter-first length tie-break
    `(a_length > b_length) - (a_length < b_length)`. -/
def strCmpTotal (a b : List Nat) : Int :=
  if memcmpList a b = 0 then
    (if b.length < a.length then 1 else if a.length < b.length then -1 else 0)
  else memcmpList a b

/-- The six rich-comparison operations of the CPython protocol. -/
inductive PyCompOp where
  | lt | le | eq | ne | gt | ge
deriving DecidableEq

/-- Str_richcompare of lib.c (lines 470-494): export both operands
    (NotImplemented, modelled as `none`, when either lacks the byte-range
    capability), compare bytewise with the shorter-first tie-break, and
    answer the requested comparison. -/
def Str_richcompare (mem : Mem) (self other : PyObject) (op : PyCompOp) :
    Option Bool :=
  match export_string_like self, export_string_like other with
  | some (sa, la), some (sb, lb) =>
    some (match op with
      | .lt => decide (strCmpTotal (readBytes mem sa la) (readBytes mem sb lb) < 0)
      | .le => decide (strCmpTotal (readBytes mem sa la) (readBytes mem sb lb) ≤ 0)
      | .eq => decide (strCmpTotal (readBytes mem sa la) (readBytes mem sb lb) = 0)
      | .ne => decide (strCmpTotal (readBytes mem sa la) (readBytes mem sb lb) ≠ 0)
      | .gt => decide (0 < strCmpTotal (readBytes mem sa la) (readBytes mem sb lb))
      | .ge => decide (0 ≤ strCmpTotal (readBytes mem sa la) (readBytes mem sb lb)))
  | _, _ => none

/-- Str_contains of lib.c (lines 406-420): export the needle (error, `none`,
    when unsupported), run the substring-search kernel on (self bytes, needle
    bytes), and report whether the returned position differs from the
    haystack length. -/
def Str_contains (kernel : List Nat → List Nat → Nat) (mem : Mem)
    (self : Str) (arg : PyObject) : Option Bool :=
  match export_string_like arg with
  | none => none
  | some (ns, nl) =>
    some (kernel (readBytes mem self.start self.length) (readBytes mem ns nl)
          != self.length)

/-- Str_hash of lib.c (line 422): delegate to the hash kernel over the view's
    bytes. -/
def Str_hash (kernel : List Nat → Nat) (mem : Mem) (self : Str) : Nat :=
  kernel (readBytes mem self.start self.length)

/-- The index adjustment of Str_getitem (lines 356-358): a negative index
    counts from the end. -/
def adjustedIdx (length : Nat) (i : Int) : Int := if i < 0 then i + length else i

/-- Str_getitem of lib.c (lines 354-367): adjust a negative index by the
    length, fail (`none`, an IndexError) when the adjusted index is outside
    [0, length), otherwise return the byte at that offset. -/
def Str_getitem (mem : Mem) (self : Str) (i : Int) : Option Nat :=
  if adjustedIdx self.length i < 0 ∨
     (self.length : Int) ≤ adjustedIdx self.length i then none
  else some (mem (self.start + (adjustedIdx self.length i).toNat))

/-- Result of Str_getslice: either the empty Python `str` of the zero-length
    early return (line 451), or a freshly allocated `Str` view. -/
inductive SliceResult where
  | emptyStr
  | newView (v : Str)
deriving DecidableEq

/-- Whether a Str_getslice result is a view object (as opposed to the plain
    empty `str`). -/
def SliceResult.isView : SliceResult → Bool
  | .emptyStr => false
  | .newView _ => true

/-- Str_getslice of lib.c (lines 424-466): optional integer bounds default to
    0 and this view's own length, are normalized by the slice normalizer
    against this view's length, and the result is the empty `str` when the
    normalized length is zero, or otherwise a new `Str` whose parent
    reference is the sliced view (`selfId`) and whose range is the normalized
    sub-range. -/
def Str_getslice (selfId : Nat) (self : Str) (startArg stopArg : Option Int) :
    SliceResult :=
  if (slice self.length (startArg.getD 0) (stopArg.getD (self.length : Int))).2 = 0
  then .emptyStr
  else .newView
    ⟨some selfId,
     self.start + (slice self.length (startArg.getD 0) (stopArg.getD (self.length : Int))).1,
     (slice self.length (startArg.getD 0) (stopArg.getD (self.length : Int))).2⟩

/-- PySlice_AdjustIndices (the CPython API called by Str_subscript at line
    374): clamp one index for the given step sign; for step 1 the result lies
    in [0, length].  The slice length the API returns is discarded by lib.c,
    so only the adjusted index is modelled. -/
def pySliceAdjustIndex (length : Nat) (i : Int) (step : Int) : Int :=
  if i < 0 then
    (if i + length < 0 then (if step < 0 then -1 else 0) else i + length)
  else if (length : Int) ≤ i then
    (if step < 0 then (length : Int) - 1 else (length : Int))
  else i

/-- The error of the non-unit-step branch of Str_subscript (line 378). -/
inductive SubscriptErr where
  | stepNotSupported
deriving DecidableEq

/-- The slice branch of Str_subscript of lib.c (lines 370-394): adjust start
    and stop with PySlice_AdjustIndices, reject steps other than 1, then
    build a child view at offset start whose size_t length field is
    stop - start converted to size_t, i.e. reduced modulo 2^64 (the C
    conversion of a possibly negative Py_ssize_t difference). -/
def Str_subscript_slice (selfId : Nat) (self : Str)
    (start stop step : Int) : Except SubscriptErr Str :=
  if step ≠ 1 then .error .stepNotSupported
  else .ok
    ⟨some selfId,
     self.start + (pySliceAdjustIndex self.length start step).toNat,
     ((pySliceAdjustIndex self.length stop step -
       pySliceAdjustIndex self.length start step) % ((2 : Int) ^ 64)).toNat⟩

/-- Whether a view's byte range is contained in a parent range (the
    containment invariant of the data model). -/
def containedIn (v : Str) (pstart plen : Nat) : Bool :=
  decide (pstart ≤ v.start) && decide (v.start + v.length ≤ pstart + plen)

/-- PY_SSIZE_T_MAX, the default end bound of str_find_vectorcall (line
    155). -/
def PY_SSIZE_T_MAX : Int := 2 ^ 63 - 1

/-- str_find_vectorcall of lib.c (lines 128-163): export haystack and needle
    (TypeError, `none`, when either is unsupported), restrict the haystack by
    the slice normalizer using the optional start/end arguments, advance the
    haystack pointer by the normalized offset, and return the kernel's
    position over the restricted range — the normalized offset is not added
    back to the result. -/
def str_find_vectorcall (kernel : List Nat → List Nat → Nat) (mem : Mem)
    (haystack needle : PyObject) (startArg stopArg : Option Int) :
    Option Nat :=
  match export_string_like haystack, export_string_like needle with
  | some (hs, hl), some (ns, nl) =>
    some (kernel
      (readBytes mem (hs + (slice hl (startArg.getD 0) (stopArg.getD PY_SSIZE_T_MAX)).1)
        (slice hl (startArg.getD 0) (stopArg.getD PY_SSIZE_T_MAX)).2)
      (readBytes mem ns nl))
  | _, _ => none

/-- Modelled from the spec: the external substring-search kernel
    (strzl_neon_find_substr, whose implementation is not part of this
    repository) returns a position in [0, haystack.length], with
    haystack.length as the "not found" sentinel and an empty needle found at
    position 0. -/
def naiveFind (h n : List Nat) : Nat :=
  match (List.range (h.length + 1)).find? (fun i => n.isPrefixOf (h.drop i)) with
  | some i => i
  | none => h.length

/-- Modelled from the spec: the external CRC-style hash kernel
    (strzl_hash_crc32_native, whose implementation is not part of this
    repository) is an arbitrary deterministic pure function of the bytes;
    this executable stand-in witnesses the hash claims. -/
def crcModel (l : List Nat) : Nat :=
  l.foldl (fun a b => (a * 31 + b) % 2 ^ 32) 5381

/-- OS-level resource events emitted by the mapped-file code: acquisition and
    release of a descriptor or of a mapping. -/
inductive Ev where
  | acqFd (fd : Int)
  | relFd (fd : Int)
  | acqMap (addr len : Nat)
  | relMap (addr len : Nat)
deriving DecidableEq

/-- OS oracle for one open attempt: the descriptor returned by `open`
    (negative on failure), `fstat`'s answer per valid descriptor, and
    `mmap`'s answer per valid descriptor and size. -/
structure MMapEnv where
  openRet : Int
  fstatRet : Int → Option Nat
  mmapRet : Int → Nat → Option Nat

/-- POSIX fstat: always fails (EBADF) on an invalid descriptor. -/
def osFstat (env : MMapEnv) (fd : Int) : Option Nat :=
  if fd < 0 then none else env.fstatRet fd

/-- POSIX mmap: always fails (EBADF) on an invalid descriptor. -/
def osMmap (env : MMapEnv) (fd : Int) (len : Nat) : Option Nat :=
  if fd < 0 then none else env.mmapRet fd len

/-- POSIX close: releases the descriptor when it is valid; `close(-1)`
    releases nothing. -/
def closeEv (fd : Int) : List Ev := if 0 ≤ fd then [Ev.relFd fd] else []

/-- The failure taxonomy the spec assigns to Mapped File open; in lib.c the
    message "Can't retrieve file size!" is the ioErr class and "Couldn't map
    the file!" is mapFailed, while notFound is the class the spec assigns to
    an unopenable path. -/
inductive InitError where
  | notFound
  | ioErr
  | mapFailed
deriving DecidableEq

/-- MemoryMappedFile_init of lib.c (POSIX branch, lines 244-263): the return
    value of `open` is stored without being checked; an fstat failure closes
    the descriptor, zeroes the field and reports the size error; an mmap
    failure closes the descriptor, zeroes the field and reports the map
    error; success records descriptor, mapping address and length.  The event
    list traces the OS acquisitions and releases of the attempt. -/
def MemoryMappedFile_init (env : MMapEnv) :
    Except InitError MMFile × List Ev :=
  match osFstat env env.openRet with
  | none =>
    (.error .ioErr,
     (if 0 ≤ env.openRet then [Ev.acqFd env.openRet] else []) ++ closeEv env.openRet)
  | some size =>
    match osMmap env env.openRet size with
    | none =>
      (.error .mapFailed,
       (if 0 ≤ env.openRet then [Ev.acqFd env.openRet] else []) ++ closeEv env.openRet)
    | some addr =>
      (.ok ⟨env.openRet, some addr, size⟩,
       (if 0 ≤ env.openRet then [Ev.acqFd env.openRet] else []) ++ [Ev.acqMap addr size])

/-- MemoryMappedFile_dealloc of lib.c (POSIX branch, lines 183-192): munmap
    and null the start when it is set, then close and zero the descriptor
    when it is nonzero; each handle field is cleared right after its
    release. -/
def MemoryMappedFile_dealloc (f : MMFile) : MMFile × List Ev :=
  match f.start with
  | some a =>
    if f.file_descriptor ≠ 0 then
      (⟨0, none, 0⟩, [Ev.relMap a f.length] ++ closeEv f.file_descriptor)
    else (⟨f.file_descriptor, none, 0⟩, [Ev.relMap a f.length])
  | none =>
    if f.file_descriptor ≠ 0 then
      (⟨0, none, f.length⟩, closeEv f.file_descriptor)
    else (f, [])

/-- Concrete OS oracle where the path cannot be opened: `open` returns -1
    while fstat and mmap would succeed on any valid descriptor. -/
def envOpenFail : MMapEnv :=
  ⟨-1, fun _ => some 5, fun _ _ => some 4096⟩

/-- Concrete memory holding bytes 10, 11, 12, 13 at addresses 0-3 and the
    same bytes again at addresses 4-7. -/
def memW : Mem := fun a => if a < 4 then a + 10 else if a < 8 then a + 6 else 0

/-- Concrete memory holding byte 97 + a at address a. -/
def memC6 : Mem := fun a => 97 + a

/-- A one-byte view at address 0. -/
def strC6 : Str := ⟨none, 0, 1⟩

/-- A ten-byte view at address 100. -/
def strC3 : Str := ⟨none, 100, 10⟩

/-- A ten-byte view at address 0. -/
def strC7 : Str := ⟨none, 0, 10⟩

/-- Concrete memory holding byte 98 at address 0, byte 97 at address 1. -/
def memFind : Mem := fun a => if a = 0 then 98 else if a = 1 then 97 else 0

theorem clampIndex_nonneg (length : Nat) (i : Int) : 0 ≤ clampIndex length i := by
  unfold clampIndex clampHigh clampLow addIfNeg
  split_ifs <;> omega

theorem clampIndex_le (length : Nat) (i : Int) :
    clampIndex length i ≤ (length : Int) := by
  unfold clampIndex clampHigh clampLow addIfNeg
  split_ifs <;> omega

theorem slice_add_le (length : Nat) (start stop : Int) :
    (slice length start stop).1 + (slice length start stop).2 ≤ length := by
  have h1 := clampIndex_nonneg length start
  have h2 := clampIndex_nonneg length stop
  have h3 := clampIndex_le length start
  have h4 := clampIndex_le length stop
  unfold slice sliceStart
  split_ifs <;> simp <;> omega

/-- Claim C1: the Slice Normalizer, for every non-negative length and all
    signed start/end, returns (offset, normalized_length) satisfying
    0 ≤ offset ≤ offset + normalized_length ≤ length; each negative index is
    adjusted by adding the length, both are clamped to [0, length], and when
    the clamped start exceeds the clamped end the start is forced to the end,
    so out-of-order bounds give an empty result and never an error (the
    function is total). -/
theorem slice_normalizer_bounds (length : Nat) (start stop : Int) :
    (slice length start stop).1 + (slice length start stop).2 ≤ length ∧
    (clampIndex length start > clampIndex length stop →
      slice length start stop = ((clampIndex length stop).toNat, 0)) := by
  refine ⟨slice_add_le length start stop, fun hgt => ?_⟩
  unfold slice sliceStart
  rw [if_pos hgt]
  simp

theorem slice_normalizer_bounds_witness :
    (slice 10 5 2).1 + (slice 10 5 2).2 ≤ 10 ∧ slice 10 5 2 = (2, 0) :=
  ⟨(slice_normalizer_bounds 10 5 2).1,
   (slice_normalizer_bounds 10 5 2).2 (by decide)⟩

theorem strCmpTotal_cons_cons (x : Nat) (xs ys : List Nat) :
    strCmpTotal (x :: xs) (x :: ys) = strCmpTotal xs ys := by
  simp [strCmpTotal, memcmpList, lt_self_iff_false, Nat.succ_lt_succ_iff]

theorem strCmpTotal_eq_zero_iff (a b : List Nat) :
    strCmpTotal a b = 0 ↔ a = b := by
  induction a generalizing b with
  | nil =>
    cases b with
    | nil => simp [strCmpTotal, memcmpList]
    | cons y ys => simp [strCmpTotal, memcmpList]
  | cons x xs ih =>
    cases b with
    | nil => simp [strCmpTotal, memcmpList]
    | cons y ys =>
      rcases Nat.lt_trichotomy x y with h | h | h
      · have hne : x ≠ y := Nat.ne_of_lt h
        simp [strCmpTotal, memcmpList, h, hne]
      · subst h
        rw [strCmpTotal_cons_cons]
        simp [ih]
      · have hne : x ≠ y := (Nat.ne_of_lt h).symm
        have hnlt : ¬ x < y := Nat.lt_asymm h
        simp [strCmpTotal, memcmpList, h, hnlt, hne]

theorem lex_cons_same_iff (x : Nat) (xs ys : List Nat) :
    List.Lex (fun a b : Nat => a < b) (x :: xs) (x :: ys) ↔
    List.Lex (fun a b : Nat => a < b) xs ys := by
  constructor
  · intro h
    cases h with
    | cons h2 => exact h2
    | rel h2 => exact absurd h2 (lt_irrefl x)
  · exact List.Lex.cons

theorem strCmpTotal_neg_iff (a b : List Nat) :
    strCmpTotal a b < 0 ↔ List.Lex (fun x y : Nat => x < y) a b := by
  induction a generalizing b with
  | nil =>
    cases b with
    | nil =>
      refine iff_of_false ?_ (fun h => nomatch h)
      simp [strCmpTotal, memcmpList]
    | cons y ys =>
      refine iff_of_true ?_ List.Lex.nil
      simp [strCmpTotal, memcmpList]
  | cons x xs ih =>
    cases b with
    | nil =>
      refine iff_of_false ?_ (fun h => nomatch h)
      simp [strCmpTotal, memcmpList]
    | cons y ys =>
      rcases Nat.lt_trichotomy x y with h | h | h
      · refine iff_of_true ?_ (List.Lex.rel h)
        simp [strCmpTotal, memcmpList, h]
      · subst h
        rw [strCmpTotal_cons_cons, lex_cons_same_iff]
        exact ih ys
      · have hnlt : ¬ x < y := Nat.lt_asymm h
        refine iff_of_false ?_ ?_
        · simp [strCmpTotal, memcmpList, h, hnlt]
        · intro hl
          cases hl with
          | cons h2 => exact absurd h (lt_irrefl _)
          | rel h2 => exact absurd (Nat.lt_trans h h2) (lt_irrefl _)

/-- Claim C4: comparison of two byte-range-like values is byte-wise
    lexicographic over the first min(len_a, len_b) bytes; when the common
    prefix is equal the shorter operand sorts first (this is the
    lexicographic list order below); the result is Equal exactly when content
    and length both match, whatever objects — hence whatever backing
    stores — export the two ranges; and a non-byte-range-like operand yields
    NotImplemented ("not comparable", modelled as none) rather than an
    error. -/
theorem richcompare_lexicographic (mem : Mem) (a b : PyObject)
    (sa la sb lb : Nat)
    (ha : export_string_like a = some (sa, la))
    (hb : export_string_like b = some (sb, lb)) :
    (Str_richcompare mem a b .eq = some true ↔
      readBytes mem sa la = readBytes mem sb lb) ∧
    (Str_richcompare mem a b .lt = some true ↔
      List.Lex (fun x y : Nat => x < y) (readBytes mem sa la) (readBytes mem sb lb)) ∧
    (∀ c : PyObject, ∀ op : PyCompOp, export_string_like c = none →
      Str_richcompare mem a c op = none ∧ Str_richcompare mem c b op = none) := by
  refine ⟨?_, ?_, ?_⟩
  · simp only [Str_richcompare, ha, hb, Option.some.injEq, decide_eq_true_eq]
    exact strCmpTotal_eq_zero_iff _ _
  · simp only [Str_richcompare, ha, hb, Option.some.injEq, decide_eq_true_eq]
    exact strCmpTotal_neg_iff _ _
  · intro c op hc
    constructor
    · simp only [Str_richcompare, ha, hc]
    · simp only [Str_richcompare, hc]

theorem richcompare_lexicographic_witness :
    (Str_richcompare memW (.pyUnicode 0 2) (.pyStr ⟨some 3, 4, 2⟩) .eq = some true ↔
      readBytes memW 0 2 = readBytes memW 4 2) ∧
    Str_richcompare memW (.pyUnicode 0 2) .pyOther .eq = none :=
  ⟨(richcompare_lexicographic memW (.pyUnicode 0 2) (.pyStr ⟨some 3, 4, 2⟩)
      0 2 4 2 rfl rfl).1,
   ((richcompare_lexicographic memW (.pyUnicode 0 2) (.pyStr ⟨some 3, 4, 2⟩)
      0 2 4 2 rfl rfl).2.2 .pyOther .eq rfl).1⟩

/-- Claim C5: for every view and every byte-range-like needle, contains
    answers true exactly when the substring-search kernel's reported position
    over (self bytes, needle bytes) is strictly below the view's length — the
    sentinel position equal to the length meaning not found — assuming the
    kernel's contract that reported positions never exceed the haystack
    length. -/
theorem contains_iff_position_lt (kernel : List Nat → List Nat → Nat)
    (mem : Mem) (self : Str) (arg : PyObject) (ns nl : Nat)
    (ha : export_string_like arg = some (ns, nl))
    (hk : kernel (readBytes mem self.start self.length) (readBytes mem ns nl)
          ≤ self.length) :
    (Str_contains kernel mem self arg = some true ↔
      kernel (readBytes mem self.start self.length) (readBytes mem ns nl)
        < self.length) := by
  simp only [Str_contains, ha, Option.some.injEq, bne_iff_ne, ne_eq]
  omega

theorem contains_iff_position_lt_witness :
    Str_contains naiveFind memW ⟨none, 0, 2⟩ (.pyBytes 1 1) = some true ↔
      naiveFind (readBytes memW 0 2) (readBytes memW 1 1) < 2 :=
  contains_iff_position_lt naiveFind memW ⟨none, 0, 2⟩ (.pyBytes 1 1) 1 1 rfl
    (by decide)

/-- Claim C2 (code bug): lib.c never checks the return value of `open`, so
    when the path cannot be opened the attempt falls through to `fstat(-1)`,
    which fails, and the surfaced error is the size-determination failure
    ("Can't retrieve file size!", the IOError class) — never the NotFound
    class the claim requires; no OS resource was acquired, so the failure
    trace is empty. -/
theorem mmInit_open_failure_misclassified :
    MemoryMappedFile_init envOpenFail = (.error .ioErr, []) ∧
    InitError.ioErr ≠ InitError.notFound :=
  ⟨rfl, by decide⟩

/-- Claim C3 counterexample: slice(5, 2) on a 10-byte view returns the empty
    Python `str` (the zero-length early return of lib.c line 451), not a View
    owning the sliced view, refuting the claim that slice always returns a
    new View whose owner is the sliced view itself. -/
theorem getslice_out_of_order_not_view_cex :
    Str_getslice 0 strC3 (some 5) (some 2) = SliceResult.emptyStr ∧
    (Str_getslice 0 strC3 (some 5) (some 2)).isView = false :=
  ⟨rfl, rfl⟩

/-- Claim C3 (amended): getslice re-normalizes its optional bounds (defaults
    0 and this view's own length) against this view's length; a nonzero
    normalized length yields a new View whose parent is the sliced view
    itself, holding the normalized sub-range, which is contained in this
    view's range; a zero normalized length — in particular out-of-order
    bounds such as slice(5, 2) on a 10-byte view — yields the empty plain
    `str` of length 0, not an error and not a Derived View. -/
theorem getslice_characterization (selfId : Nat) (self : Str)
    (startArg stopArg : Option Int) :
    (Str_getslice selfId self startArg stopArg =
      (if (slice self.length (startArg.getD 0) (stopArg.getD (self.length : Int))).2 = 0
       then SliceResult.emptyStr
       else SliceResult.newView
         ⟨some selfId,
          self.start +
            (slice self.length (startArg.getD 0) (stopArg.getD (self.length : Int))).1,
          (slice self.length (startArg.getD 0) (stopArg.getD (self.length : Int))).2⟩)) ∧
    self.start + (slice self.length (startArg.getD 0) (stopArg.getD (self.length : Int))).1 +
      (slice self.length (startArg.getD 0) (stopArg.getD (self.length : Int))).2
      ≤ self.start + self.length := by
  refine ⟨rfl, ?_⟩
  have h := slice_add_le self.length (startArg.getD 0) (stopArg.getD (self.length : Int))
  omega

/-- Claim C6 counterexample: on a one-byte view the index -1 is valid
    (byte_at succeeds), but byte_at(-1 - length) = byte_at(-2) fails with
    IndexOutOfRange, so the claimed equivalence
    byte_at(i) = byte_at(i - length) does not hold for every valid i. -/
theorem getitem_negative_alias_cex :
    Str_getitem memC6 strC6 (-1) = some 97 ∧
    Str_getitem memC6 strC6 (-1 - 1) = none ∧
    Str_getitem memC6 strC6 (-1) ≠ Str_getitem memC6 strC6 (-1 - 1) :=
  ⟨rfl, rfl, by decide⟩

/-- Claim C6 (amended): byte_at first adds the view's length to a negative
    index and fails with IndexOutOfRange exactly when the adjusted index lies
    outside [0, length); consequently for every nonnegative valid index i
    (0 ≤ i < length), v.byte_at(i) = v.byte_at(i - v.length()). -/
theorem getitem_spec (mem : Mem) (v : Str) (i : Int) :
    (Str_getitem mem v i = none ↔
      (adjustedIdx v.length i < 0 ∨ (v.length : Int) ≤ adjustedIdx v.length i)) ∧
    (0 ≤ i → i < (v.length : Int) →
      Str_getitem mem v i = Str_getitem mem v (i - (v.length : Int))) := by
  constructor
  · unfold Str_getitem
    split_ifs with h
    · simp [h]
    · simp [h]
  · intro h1 h2
    have hnneg : ¬ i < 0 := by omega
    have hlt : i - (v.length : Int) < 0 := by omega
    have heq : i - (v.length : Int) + (v.length : Int) = i := by ring
    simp only [Str_getitem, adjustedIdx, if_neg hnneg, if_pos hlt, heq]

theorem getitem_spec_witness :
    (Str_getitem memC6 strC6 2 = none ↔
      (adjustedIdx 1 2 < 0 ∨ (1 : Int) ≤ adjustedIdx 1 2)) ∧
    Str_getitem memC6 strC6 0 = Str_getitem memC6 strC6 (0 - 1) :=
  ⟨(getitem_spec memC6 strC6 2).1,
   (getitem_spec memC6 strC6 0).2 (by decide) (by decide)⟩

/-- Claim C7 (code bug): the slice branch of Str_subscript ignores the slice
    length returned by PySlice_AdjustIndices and stores stop - start in a
    size_t, so the out-of-order request [5:2] with step 1 on a 10-byte view
    produces a child whose length underflows to 2^64 - 3 and whose byte range
    is not contained in the parent view's range, violating the containment
    invariant. -/
theorem subscript_underflow_breaks_containment :
    Str_subscript_slice 1 strC7 5 2 1 =
      Except.ok ⟨some 1, 5, 2 ^ 64 - 3⟩ ∧
    containedIn ⟨some 1, 5, 2 ^ 64 - 3⟩ 0 10 = false := by
  constructor
  · rfl
  · decide

/-- Claim C8: the hash of a view is the kernel applied to the viewed bytes
    only, so any two views with identical byte content — whatever their
    owners, backing stores, or memories — produce identical hash values; in
    particular re-slicing or reconstructing an identical range reproduces the
    same hash. -/
theorem hash_pure_function_of_content (kernel : List Nat → Nat)
    (mem1 mem2 : Mem) (v1 v2 : Str)
    (h : readBytes mem1 v1.start v1.length = readBytes mem2 v2.start v2.length) :
    Str_hash kernel mem1 v1 = Str_hash kernel mem2 v2 := by
  unfold Str_hash
  rw [h]

theorem hash_pure_function_of_content_witness :
    Str_hash crcModel memW ⟨none, 0, 2⟩ = Str_hash crcModel memW ⟨some 3, 4, 2⟩ :=
  hash_pure_function_of_content crcModel memW memW ⟨none, 0, 2⟩ ⟨some 3, 4, 2⟩
    (by decide)

/-- Claim C9: teardown clears each handle field right after releasing it:
    after one dealloc the mapping pointer is null and the descriptor is zero,
    and a second dealloc leaves the state unchanged and emits no further OS
    release action — never a double-unmap or double-close. -/
theorem dealloc_idempotent (f : MMFile) :
    (MemoryMappedFile_dealloc f).1.start = none ∧
    (MemoryMappedFile_dealloc f).1.file_descriptor = 0 ∧
    MemoryMappedFile_dealloc (MemoryMappedFile_dealloc f).1 =
      ((MemoryMappedFile_dealloc f).1, []) := by
  rcases f with ⟨fd, st, len⟩
  cases st <;> by_cases hfd : fd = 0 <;>
    simp_all [MemoryMappedFile_dealloc, closeEv]

set_option maxRecDepth 10000 in
/-- Claim C10: the module-level find called with start bound 1 on the 2-byte
    haystack [98, 97] and needle [97] returns position 0, the kernel position
    relative to the clamped sub-range, while the match's index in the full
    haystack is 1 — the normalized offset is never added back to the
    result. -/
theorem find_position_not_rebased :
    str_find_vectorcall naiveFind memFind (.pyBytes 0 2) (.pyBytes 1 1)
      (some 1) none = some 0 ∧
    naiveFind (readBytes memFind 0 2) (readBytes memFind 1 1) = 1 ∧
    str_find_vectorcall naiveFind memFind (.pyBytes 0 2) (.pyBytes 1 1)
      (some 1) none ≠
      some (naiveFind (readBytes memFind 0 2) (readBytes memFind 1 1)) := by
  refine ⟨?_, ?_, ?_⟩ <;> decide

end SZ
